import Mathlib

/-!
Shallow embedding of the tilal-backend inventory stock ledger
(src/models/Inventory.js, src/models/InventoryTransaction.js, the inventory
controller's withdrawInventory/restockInventory handlers) and the task
lifecycle (src/models/Task.js, src/controllers/clientController.js:
updateTask, completeTask, assignTask).

Conventions of the embedding:
* JS `Number` quantities are modelled as `Int` (see `Quantity`); timestamps
  (`Date`, compared in milliseconds) as `Int`; the task-duration hook, the
  one place real division occurs, uses `Rat`.
* A mongoose `save()` runs schema validators; the only validator relevant to
  the claims is `quantity.current: { min: 0 }` on the inventory schema, so
  `saveInventoryItem` fails exactly when the balance would go negative.
* HTTP handlers are modelled as functions returning
  `Option String × State`: `none` in the first component is the success
  response, `some msg` an error response; the second component is the
  database state after the handler ran (early returns leave it unchanged,
  a thrown error keeps whatever writes already happened, as with a real
  document store without multi-document transactions).
* The item-not-found (404) branches are outside the model: the state types
  contain the item/task the request addresses.
-/

/-- The `quantity` subdocument of the inventory schema (Inventory.js). JS
numeric quantities are embedded as `Int`: every ledger operation and claim
here uses only addition, subtraction and order, so the embedding is
faithful on integral quantities. -/
structure Quantity where
  current : Int
  minimum : Int
  maximum : Int
deriving DecidableEq

/-- The `lowStockAlert` subdocument of the inventory schema (Inventory.js). -/
structure LowStockAlert where
  enabled : Bool
  lastAlertSent : Option Int
deriving DecidableEq

/-- An inventory document (Inventory.js), restricted to the fields the
claims mention. -/
structure InventoryItem where
  quantity : Quantity
  unit : String
  lowStockAlert : LowStockAlert
  lastRestocked : Option Int
deriving DecidableEq

/-- Model of `item.save()`: mongoose runs the schema validators; `quantity.current`
has `min: 0` (Inventory.js), so a save that would persist a negative
balance is rejected with a validation error. -/
def saveInventoryItem (item : InventoryItem) : Except String InventoryItem :=
  if item.quantity.current < 0 then
    Except.error "Inventory validation failed: quantity.current is below minimum value 0"
  else
    Except.ok item

/-- Method `inventorySchema.methods.deduct` (Inventory.js lines 99-105):
throws `Insufficient stock` when `current < amount`, otherwise subtracts
and saves. -/
def InventoryItem.deduct (item : InventoryItem) (amount : Int) :
    Except String InventoryItem :=
  if item.quantity.current < amount then
    Except.error "Insufficient stock"
  else
    saveInventoryItem
      { item with quantity := { item.quantity with current := item.quantity.current - amount } }

/-- Method `inventorySchema.methods.restock` (Inventory.js lines 108-112):
adds the amount, stamps `lastRestocked`, and saves. -/
def InventoryItem.restock (item : InventoryItem) (amount : Int) (now : Int) :
    Except String InventoryItem :=
  saveInventoryItem
    { item with
      quantity := { item.quantity with current := item.quantity.current + amount }
      lastRestocked := some now }

/-- An InventoryTransaction document (InventoryTransaction.js), restricted
to the fields the claims mention. The model has no update or delete
operation on transactions: states only ever append to the transaction
list. -/
structure InventoryTransaction where
  ttype : String
  quantity : Int
  unit : String
  previousQuantity : Int
  newQuantity : Int
  taskRef : Option Nat
deriving DecidableEq

/-- Database state around one inventory item: the item document, the
transaction log for it, and the log of low-stock notifications sent for
it (each entry is the send time). -/
structure LedgerState where
  item : InventoryItem
  transactions : List InventoryTransaction
  lowStockNotifications : List Int
deriving DecidableEq

/-- The 24-hour low-stock alert cooldown, in milliseconds
(`24 * 60 * 60 * 1000` in the withdraw handler). -/
def alertCooldownMs : Int := 24 * 60 * 60 * 1000

/-- The `withdrawInventory` handler (inventory controller, part_000 lines
987-1055). Rejects with `Insufficient stock` when `current < quantity`;
otherwise deducts, appends one `withdrawal` transaction, and then runs the
low-stock block: if the new balance is at or below `minimum` and alerts are
enabled, and there is no prior alert or the prior alert is older than 24
hours, and an active admin exists, it notifies that admin and stamps
`lowStockAlert.lastAlertSent := now` (saving the item again). -/
def withdrawInventory (st : LedgerState) (quantity : Int) (taskId : Option Nat)
    (now : Int) (adminExists : Bool) : Option String × LedgerState :=
  let item := st.item
  if item.quantity.current < quantity then
    (some "Insufficient stock", st)
  else
    let previousQuantity := item.quantity.current
    match item.deduct quantity with
    | Except.error e => (some e, st)
    | Except.ok item1 =>
      let txn : InventoryTransaction :=
        { ttype := "withdrawal"
          quantity := quantity
          unit := item1.unit
          previousQuantity := previousQuantity
          newQuantity := item1.quantity.current
          taskRef := taskId }
      let st1 : LedgerState :=
        { st with item := item1, transactions := st.transactions ++ [txn] }
      if item1.quantity.current ≤ item1.quantity.minimum ∧ item1.lowStockAlert.enabled then
        let alertDue : Bool :=
          match item1.lowStockAlert.lastAlertSent with
          | none => true
          | some lastAlert => decide (now - lastAlert > alertCooldownMs)
        if alertDue ∧ adminExists then
          let item2 :=
            { item1 with
              lowStockAlert := { item1.lowStockAlert with lastAlertSent := some now } }
          (none,
            { st1 with
              item := item2
              lowStockNotifications := st1.lowStockNotifications ++ [now] })
        else
          (none, st1)
      else
        (none, st1)

/-- The `restockInventory` handler (inventory controller, part_000 lines
1062-1106): snapshots `previousQuantity`, calls `item.restock`, and on
success appends one `restock` transaction. A validation failure inside
`restock` is caught and returned as a 500 with no database write. -/
def restockInventory (st : LedgerState) (quantity : Int) (now : Int) :
    Option String × LedgerState :=
  let item := st.item
  let previousQuantity := item.quantity.current
  match item.restock quantity now with
  | Except.error e => (some e, st)
  | Except.ok item1 =>
    let txn : InventoryTransaction :=
      { ttype := "restock"
        quantity := quantity
        unit := item1.unit
        previousQuantity := previousQuantity
        newQuantity := item1.quantity.current
        taskRef := none }
    (none, { st with item := item1, transactions := st.transactions ++ [txn] })

/-- One ledger request: either a withdraw (with its request time and
whether an active admin exists at that moment) or a restock. -/
inductive LedgerOp where
  | withdraw (quantity : Int) (taskId : Option Nat) (now : Int) (adminExists : Bool)
  | restock (quantity : Int) (now : Int)
deriving DecidableEq

/-- Dispatch one ledger request to its handler. -/
def applyLedgerOp (st : LedgerState) : LedgerOp → Option String × LedgerState
  | LedgerOp.withdraw q tid now adm => withdrawInventory st q tid now adm
  | LedgerOp.restock q now => restockInventory st q now

/-- Run a sequence of ledger requests, requiring every one of them to
succeed (`none` as soon as any request returns an error response). -/
def runLedgerOps (st : LedgerState) : List LedgerOp → Option LedgerState
  | [] => some st
  | op :: ops =>
    match applyLedgerOp st op with
    | (some _, _) => none
    | (none, st1) => runLedgerOps st1 ops

/-- Sum of the withdraw quantities of a request list. -/
def sumWithdrawals : List LedgerOp → Int
  | [] => 0
  | LedgerOp.withdraw q _ _ _ :: ops => q + sumWithdrawals ops
  | LedgerOp.restock _ _ :: ops => sumWithdrawals ops

/-- Sum of the restock quantities of a request list. -/
def sumRestocks : List LedgerOp → Int
  | [] => 0
  | LedgerOp.withdraw _ _ _ _ :: ops => sumRestocks ops
  | LedgerOp.restock q _ :: ops => q + sumRestocks ops

/-- Balance change contributed by one successful ledger request. -/
def ledgerDelta : LedgerOp → Int
  | LedgerOp.withdraw q _ _ _ => -q
  | LedgerOp.restock q _ => q

/-- A concrete ledger state used to instantiate the proved theorems. -/
def demoState : LedgerState :=
  { item :=
      { quantity := { current := 10, minimum := 2, maximum := 100 }
        unit := "kg"
        lowStockAlert := { enabled := false, lastAlertSent := none }
        lastRestocked := none }
    transactions := []
    lowStockNotifications := [] }

/-- A concrete request sequence used to instantiate the proved theorems. -/
def demoOps : List LedgerOp :=
  [LedgerOp.withdraw 3 none 0 false,
   LedgerOp.restock 5 1,
   LedgerOp.withdraw 2 none 2 false]

/-- Invariant maintained by the low-stock alert cooldown: the notification
times already sent are pairwise more than the cooldown apart (listed in
send order), and every sent time is at or before the stamped
`lastAlertSent`. -/
def alertInvariant (st : LedgerState) : Prop :=
  st.lowStockNotifications.Pairwise (fun a b => alertCooldownMs < b - a) ∧
  ∀ x ∈ st.lowStockNotifications,
    ∃ t, st.item.lowStockAlert.lastAlertSent = some t ∧ x ≤ t

/-- A concrete ledger state with alerts enabled, used to instantiate the
low-stock throttling theorem. -/
def demoAlertState : LedgerState :=
  { item :=
      { quantity := { current := 10, minimum := 8, maximum := 100 }
        unit := "piece"
        lowStockAlert := { enabled := true, lastAlertSent := none }
        lastRestocked := none }
    transactions := []
    lowStockNotifications := [] }

/-- A concrete request sequence whose first and third withdrawals cross the
low-stock threshold more than 24 hours apart, with one more withdrawal
inside the cooldown window in between. -/
def demoAlertOps : List LedgerOp :=
  [LedgerOp.withdraw 3 none 0 true,
   LedgerOp.withdraw 1 none 1000 true,
   LedgerOp.withdraw 1 none 90000000 true]

/-- One material line of a task (Task.js `materials`): an optional
inventory item reference and a declared quantity. -/
structure Material where
  item : Option Nat
  quantity : Int
deriving DecidableEq

/-- A Task document (Task.js), restricted to the fields the claims mention
(named `TaskDoc` because `Task` is taken by the Lean core library).
`actualDuration` is a `Rat` because the pre-save hook divides milliseconds
by 3600000; its schema default is 0. -/
structure TaskDoc where
  worker : Option Nat
  client : Nat
  site : Option Nat
  status : String
  materials : List Material
  startedAt : Option Int
  completedAt : Option Int
  endLocationAt : Option Int
  actualDuration : Rat
  costLabor : Rat
  costMaterials : Rat
  costTotal : Rat
deriving DecidableEq

/-- JS `Math.round`: round half toward positive infinity. -/
def jsRound (x : Rat) : Int := Int.floor (x + 1 / 2)

/-- The `taskSchema.pre('save')` hook (Task.js lines 224-235): when both
`startedAt` and `completedAt` are present, set `actualDuration` to
`Math.round(((completedAt - startedAt) / (1000*60*60)) * 100) / 100`;
when either is missing, leave `actualDuration` as it is; in every case
recompute `cost.total = cost.labor + cost.materials`. -/
def taskPreSave (t : TaskDoc) : TaskDoc :=
  let t1 :=
    match t.startedAt, t.completedAt with
    | some s, some c =>
      let duration : Rat := ((c - s : Int) : Rat) / (1000 * 60 * 60)
      { t with actualDuration := (jsRound (duration * 100) : Rat) / 100 }
    | _, _ => t
  { t1 with costTotal := t1.costLabor + t1.costMaterials }

/-- The elapsed time between two millisecond timestamps expressed in
hours, as the spec words it. -/
def specHoursBetween (s c : Int) : Rat := ((c - s : Int) : Rat) / 3600000

/-- Rounding to two decimal places, with JS `Math.round` as the
rounding, as the spec words it. -/
def roundTwoDecimals (x : Rat) : Rat := (jsRound (x * 100) : Rat) / 100

/-- A user record, as far as `assignTask` consults it. -/
structure UserRec where
  role : String
deriving DecidableEq

/-- Database state around one task: the task document, the inventory
collection (keyed by item id), the shared transaction log, the counters
the completion path increments (client/worker/site `completedTasks`, site
`lastVisit`), and the notification log. -/
structure TaskWorld where
  task : TaskDoc
  inventory : Nat → Option InventoryItem
  transactions : List InventoryTransaction
  clientCompletedTasks : Int
  workerCompletedTasks : Int
  siteCompletedTasks : Int
  siteLastVisit : Option Int
  notifications : List String

/-- The `completeTask` handler (clientController.js lines 976-1018): only the
assigned worker may complete; sets `status := 'completed'`,
`completedAt := now`, records the end location, and saves the task (which
runs the pre-save hook). It touches no counters and sends no notification.
A task with no worker makes `task.worker.toString()` throw, answered as a
500 with no write. -/
def completeTask (w : TaskWorld) (userId : Nat) (now : Int) :
    Option String × TaskWorld :=
  match w.task.worker with
  | none => (some "Server error", w)
  | some wk =>
    if wk ≠ userId then
      (some "Not authorized", w)
    else
      let t := taskPreSave
        { w.task with
          status := "completed"
          completedAt := some now
          endLocationAt := some now }
      (none, { w with task := t })

/-- The fields of `req.body` that the modelled `updateTask` paths read or
write. -/
structure UpdateBody where
  worker : Option Nat
  status : Option String
  completedAt : Option Int
deriving DecidableEq

/-- The `status` enum of the task schema (Task.js). -/
def statusEnum : List String :=
  ["pending", "assigned", "in-progress", "completed", "review", "rejected"]

/-- The material-deduction loop of `updateTask` (clientController.js lines
830-840): for each material line with an item reference whose inventory
document exists, call `inventoryItem.deduct(material.quantity)`. Each
deduction saves individually, so when one throws, the earlier deductions
stay persisted and the loop stops with the error. No transaction record is
created anywhere in this loop. -/
def deductMaterials :
    (Nat → Option InventoryItem) → List Material →
      Option String × (Nat → Option InventoryItem)
  | inv, [] => (none, inv)
  | inv, m :: rest =>
    match m.item with
    | none => deductMaterials inv rest
    | some itemId =>
      match inv itemId with
      | none => deductMaterials inv rest
      | some inventoryItem =>
        match inventoryItem.deduct m.quantity with
        | Except.error e => (some e, inv)
        | Except.ok item1 =>
          deductMaterials (fun j => if j = itemId then some item1 else inv j) rest

/-- Model of `Task.findByIdAndUpdate(id, req.body, ...)`: fields present in the
body overwrite the document's fields. This update path does not run the
`pre('save')` hook (mongoose document middleware does not fire on
`findByIdAndUpdate`). -/
def applyBody (t : TaskDoc) (body : UpdateBody) : TaskDoc :=
  { t with
    worker := match body.worker with | some x => some x | none => t.worker
    status := match body.status with | some s => s | none => t.status
    completedAt :=
      match body.completedAt with | some x => some x | none => t.completedAt }

/-- The `updateTask` handler (clientController.js lines 810-890): a worker may
only update their own task; if the body carries a worker and the task has
none, deduct every material line from inventory (500 on a thrown
insufficient-stock error, keeping the deductions already made) and force
`body.status := 'assigned'`; if the (possibly forced) body status is
`completed` and the task is not yet completed, stamp `body.completedAt`,
increment the client counter, the worker counter (when a worker is set)
and the site counter with `lastVisit` (when a site is set); finally apply
the body via `findByIdAndUpdate` with `runValidators` (an out-of-enum
status is rejected after the counter writes already happened). -/
def updateTask (w : TaskWorld) (body : UpdateBody) (role : String)
    (userId : Nat) (now : Int) : Option String × TaskWorld :=
  if role = "worker" ∧ w.task.worker ≠ some userId then
    (some "Not authorized to update this task", w)
  else
    match
      (if body.worker.isSome ∧ w.task.worker = none then
        match deductMaterials w.inventory w.task.materials with
        | (some e, inv1) => (some e, inv1, body)
        | (none, inv1) => (none, inv1, { body with status := some "assigned" })
      else (none, w.inventory, body)) with
    | (some _, inv1, _) => (some "Server error", { w with inventory := inv1 })
    | (none, inv1, body1) =>
      let w1 := { w with inventory := inv1 }
      let step2 : TaskWorld × UpdateBody :=
        if body1.status = some "completed" ∧ w1.task.status ≠ "completed" then
          let body3 := { body1 with completedAt := some now }
          let w3 := { w1 with clientCompletedTasks := w1.clientCompletedTasks + 1 }
          let w4 :=
            match w1.task.worker with
            | some _ =>
              { w3 with workerCompletedTasks := w3.workerCompletedTasks + 1 }
            | none => w3
          let w5 :=
            match w1.task.site with
            | some _ =>
              { w4 with
                siteCompletedTasks := w4.siteCompletedTasks + 1
                siteLastVisit := some now }
            | none => w4
          (w5, body3)
        else (w1, body1)
      let w2 := step2.1
      let body2 := step2.2
      match body2.status with
      | some s =>
        if statusEnum.contains s then
          (none, { w2 with task := applyBody w2.task body2 })
        else
          (some "Server error", w2)
      | none => (none, { w2 with task := applyBody w2.task body2 })

/-- The `assignTask` handler (clientController.js lines 1177-1220): looks the
worker up (404 unless found with role `worker`), then unconditionally sets
`task.worker := workerId` and `status := 'assigned'`, saves the task
(running the pre-save hook), and sends the assignment notification. It
never consults the task's current `worker`, and it touches neither the
inventory collection nor the transaction log. -/
def assignTask (w : TaskWorld) (workerId : Nat) (users : Nat → Option UserRec) :
    Option String × TaskWorld :=
  match users workerId with
  | none => (some "Worker not found", w)
  | some u =>
    if u.role ≠ "worker" then
      (some "Worker not found", w)
    else
      let t := taskPreSave
        { w.task with worker := some workerId, status := "assigned" }
      (none,
        { w with task := t, notifications := w.notifications ++ ["task-assignment"] })

/-- A concrete already-assigned task world: worker 1 holds the task, one
material line of quantity 3 over inventory item 0 (balance 10). -/
def demoAssignedWorld : TaskWorld :=
  { task :=
      { worker := some 1
        client := 7
        site := some 4
        status := "assigned"
        materials := [{ item := some 0, quantity := 3 }]
        startedAt := none
        completedAt := none
        endLocationAt := none
        actualDuration := 0
        costLabor := 0
        costMaterials := 0
        costTotal := 0 }
    inventory := fun j =>
      if j = 0 then
        some
          { quantity := { current := 10, minimum := 2, maximum := 100 }
            unit := "kg"
            lowStockAlert := { enabled := false, lastAlertSent := none }
            lastRestocked := none }
      else none
    transactions := []
    clientCompletedTasks := 0
    workerCompletedTasks := 0
    siteCompletedTasks := 0
    siteLastVisit := none
    notifications := [] }

/-- A concrete unassigned task world: no worker yet, same single material
line over inventory item 0. -/
def demoUnassignedWorld : TaskWorld :=
  { demoAssignedWorld with
    task := { demoAssignedWorld.task with worker := none, status := "pending" } }

/-- A concrete user directory: user 2 is a worker. -/
def demoUsers : Nat → Option UserRec := fun j =>
  if j = 2 then some { role := "worker" } else none

/-- A concrete task with no timestamps but a stale non-zero
`actualDuration` (reachable through the API: `updateTask` passes `req.body`
straight to `findByIdAndUpdate`, so `actualDuration` can be written
directly while both timestamps stay unset). -/
def demoStaleTask : TaskDoc :=
  { worker := none
    client := 7
    site := none
    status := "pending"
    materials := []
    startedAt := none
    completedAt := none
    endLocationAt := none
    actualDuration := 7
    costLabor := 0
    costMaterials := 0
    costTotal := 0 }

/-- A concrete task that ran from epoch 0 to 5400000 ms (1.5 hours). -/
def demoTimedTask : TaskDoc :=
  { demoStaleTask with
    startedAt := some 0
    completedAt := some 5400000
    actualDuration := 0 }

/-- A concrete `updateTask` body that only assigns worker 2. -/
def demoBody : UpdateBody :=
  { worker := some 2, status := none, completedAt := none }

/-! ## Theorems -/

/-- Method `deduct` succeeds exactly when the guard passes, and then subtracts the
amount (the `min: 0` validator inside the save can never fire, because the
guard already ensures `current - amount ≥ 0`). -/
theorem deduct_ok_iff (item item' : InventoryItem) (q : Int) :
    item.deduct q = Except.ok item' ↔
      ¬ item.quantity.current < q ∧
        item' = { item with
          quantity := { item.quantity with current := item.quantity.current - q } } := by
  unfold InventoryItem.deduct saveInventoryItem
  by_cases hg : item.quantity.current < q
  · simp [hg]
  · have hv : ¬ item.quantity.current - q < 0 := by
      push_neg at hg ⊢
      linarith
    simp [hg, hv, eq_comm]

/-- Method `restock` succeeds exactly when the saved balance passes the `min: 0`
validator, and then adds the amount and stamps `lastRestocked`. -/
theorem restock_ok_iff (item item' : InventoryItem) (q : Int) (now : Int) :
    item.restock q now = Except.ok item' ↔
      ¬ item.quantity.current + q < 0 ∧
        item' = { item with
          quantity := { item.quantity with current := item.quantity.current + q }
          lastRestocked := some now } := by
  unfold InventoryItem.restock saveInventoryItem
  by_cases hv : item.quantity.current + q < 0
  · simp [hv]
  · simp [hv, eq_comm]

/-- Characterization of a successful withdraw response: the guard held, the
balance dropped by exactly the requested quantity, exactly one `withdrawal`
transaction with the before/after snapshot was appended, and the alert
block either did nothing or sent one notification at `now` (stamping
`lastAlertSent := now`), the latter only when the cooldown condition on the
previous `lastAlertSent` held. -/
theorem withdrawInventory_ok_spec (st st1 : LedgerState) (q : Int)
    (tid : Option Nat) (now : Int) (adm : Bool)
    (h : withdrawInventory st q tid now adm = (none, st1)) :
    q ≤ st.item.quantity.current ∧
    st1.item.quantity.current = st.item.quantity.current - q ∧
    st1.item.unit = st.item.unit ∧
    st1.transactions = st.transactions ++
      [{ ttype := "withdrawal", quantity := q, unit := st.item.unit,
         previousQuantity := st.item.quantity.current,
         newQuantity := st.item.quantity.current - q, taskRef := tid }] ∧
    ((st1.lowStockNotifications = st.lowStockNotifications ∧
        st1.item.lowStockAlert = st.item.lowStockAlert) ∨
      (st1.lowStockNotifications = st.lowStockNotifications ++ [now] ∧
        st1.item.lowStockAlert =
          { st.item.lowStockAlert with lastAlertSent := some now } ∧
        (st.item.lowStockAlert.lastAlertSent = none ∨
          ∃ tprev, st.item.lowStockAlert.lastAlertSent = some tprev ∧
            now - tprev > alertCooldownMs))) := by
  unfold withdrawInventory at h
  by_cases hg : st.item.quantity.current < q
  · simp [hg] at h
  · simp only [hg, if_false] at h
    cases hd : st.item.deduct q with
    | error e => rw [hd] at h; simp at h
    | ok item1 =>
      rw [hd] at h
      obtain ⟨-, hitem1⟩ := (deduct_ok_iff st.item item1 q).mp hd
      subst hitem1
      simp only [] at h
      refine ⟨not_lt.mp hg, ?_⟩
      split at h
      · split at h
        · -- alert sent
          obtain ⟨-, h2⟩ := Prod.mk.injEq .. ▸ h
          cases h
          rename_i halert
          refine ⟨rfl, rfl, rfl, Or.inr ⟨rfl, rfl, ?_⟩⟩
          obtain ⟨hdue, -⟩ := halert
          revert hdue
          cases hla : st.item.lowStockAlert.lastAlertSent with
          | none => exact fun _ => Or.inl rfl
          | some tprev =>
            intro hdue
            exact Or.inr ⟨tprev, rfl, by simpa using hdue⟩
        · cases h
          exact ⟨rfl, rfl, rfl, Or.inl ⟨rfl, rfl⟩⟩
      · cases h
        exact ⟨rfl, rfl, rfl, Or.inl ⟨rfl, rfl⟩⟩

/-- C1: a withdraw request with `quantity > current` fails with the
insufficient-stock error and leaves the whole ledger state (balance and
transaction log) unchanged. -/
theorem C1_insufficient_withdraw_fails (st : LedgerState) (q : Int)
    (tid : Option Nat) (now : Int) (adm : Bool)
    (h : st.item.quantity.current < q) :
    (withdrawInventory st q tid now adm).1 = some "Insufficient stock" ∧
    (withdrawInventory st q tid now adm).2 = st := by
  unfold withdrawInventory
  simp [h]

/-- Witness for C1 at a concrete item with balance 5 and request 6. -/
theorem C1_insufficient_withdraw_fails_witness :
    let st : LedgerState :=
      { item :=
          { quantity := { current := 5, minimum := 2, maximum := 100 }
            unit := "kg"
            lowStockAlert := { enabled := true, lastAlertSent := none }
            lastRestocked := none }
        transactions := []
        lowStockNotifications := [] }
    (withdrawInventory st 6 none 0 true).1 = some "Insufficient stock" ∧
    (withdrawInventory st 6 none 0 true).2 = st :=
  C1_insufficient_withdraw_fails _ 6 none 0 true (by decide)

/-- Characterization of a successful restock response: the saved balance
passed the `min: 0` validator, the balance rose by exactly the requested
quantity, and exactly one `restock` transaction with the before/after
snapshot was appended; the alert state and the notification log are
untouched. -/
theorem restockInventory_ok_spec (st st1 : LedgerState) (q : Int) (now : Int)
    (h : restockInventory st q now = (none, st1)) :
    0 ≤ st.item.quantity.current + q ∧
    st1.item.quantity.current = st.item.quantity.current + q ∧
    st1.item.unit = st.item.unit ∧
    st1.item.lowStockAlert = st.item.lowStockAlert ∧
    st1.transactions = st.transactions ++
      [{ ttype := "restock", quantity := q, unit := st.item.unit,
         previousQuantity := st.item.quantity.current,
         newQuantity := st.item.quantity.current + q, taskRef := none }] ∧
    st1.lowStockNotifications = st.lowStockNotifications := by
  simp only [restockInventory] at h
  cases hr : st.item.restock q now with
  | error e => rw [hr] at h; simp at h
  | ok item1 =>
    rw [hr] at h
    obtain ⟨hv, hitem1⟩ := (restock_ok_iff st.item item1 q now).mp hr
    subst hitem1
    cases h
    exact ⟨not_lt.mp hv, rfl, rfl, rfl, rfl, rfl⟩

/-- A successful request changes the balance by exactly `ledgerDelta` and
leaves it non-negative (the withdraw guard, resp. the schema validator,
ensures this). -/
theorem applyLedgerOp_ok (st st1 : LedgerState) (op : LedgerOp)
    (h : applyLedgerOp st op = (none, st1)) :
    st1.item.quantity.current = st.item.quantity.current + ledgerDelta op ∧
    0 ≤ st1.item.quantity.current := by
  cases op with
  | withdraw q tid now adm =>
    obtain ⟨hq, hcur, -⟩ := withdrawInventory_ok_spec st st1 q tid now adm h
    refine ⟨by rw [hcur]; simp [ledgerDelta]; ring, by rw [hcur]; linarith⟩
  | restock q now =>
    obtain ⟨hv, hcur, -⟩ := restockInventory_ok_spec st st1 q now h
    refine ⟨by rw [hcur]; simp [ledgerDelta], by rw [hcur]; linarith⟩

/-- Splitting a run at any point: the prefix must itself run successfully
and the suffix continues from its end state. -/
theorem runLedgerOps_append (st : LedgerState) (pre suf : List LedgerOp) :
    runLedgerOps st (pre ++ suf) =
      (runLedgerOps st pre).bind (fun mid => runLedgerOps mid suf) := by
  induction pre generalizing st with
  | nil => simp [runLedgerOps]
  | cons op ops ih =>
    simp only [List.cons_append, runLedgerOps]
    rcases hap : applyLedgerOp st op with ⟨fst, st1⟩
    cases fst with
    | none => simp [ih]
    | some e => simp

/-- A successful run starting from a non-negative balance ends with a
non-negative balance. -/
theorem runLedgerOps_nonneg (st st' : LedgerState) (ops : List LedgerOp)
    (h : runLedgerOps st ops = some st')
    (h0 : 0 ≤ st.item.quantity.current) :
    0 ≤ st'.item.quantity.current := by
  induction ops generalizing st with
  | nil =>
    simp only [runLedgerOps, Option.some.injEq] at h
    exact h ▸ h0
  | cons op ops ih =>
    simp only [runLedgerOps] at h
    rcases hap : applyLedgerOp st op with ⟨fst, st1⟩
    rw [hap] at h
    cases fst with
    | none => exact ih st1 h (applyLedgerOp_ok st st1 op hap).2
    | some e => simp at h

/-- Balance bookkeeping of a successful run: the final balance is the
initial balance minus the withdrawn total plus the restocked total. -/
theorem runLedgerOps_balance (st st' : LedgerState) (ops : List LedgerOp)
    (h : runLedgerOps st ops = some st') :
    st'.item.quantity.current =
      st.item.quantity.current - sumWithdrawals ops + sumRestocks ops := by
  induction ops generalizing st with
  | nil =>
    simp only [runLedgerOps, Option.some.injEq] at h
    subst h
    simp [sumWithdrawals, sumRestocks]
  | cons op ops ih =>
    simp only [runLedgerOps] at h
    rcases hap : applyLedgerOp st op with ⟨fst, st1⟩
    rw [hap] at h
    cases fst with
    | none =>
      obtain ⟨hcur, -⟩ := applyLedgerOp_ok st st1 op hap
      have := ih st1 h
      cases op with
      | withdraw q tid now adm =>
        simp only [sumWithdrawals, sumRestocks, ledgerDelta] at *
        linarith
      | restock q now =>
        simp only [sumWithdrawals, sumRestocks, ledgerDelta] at *
        linarith
    | some e => simp at h

/-- C2: for an item starting at a non-negative balance, after any
successful sequence of withdraw/restock requests the balance equals the
initial balance minus the sum of the withdrawals plus the sum of the
restocks, and at every intermediate state (after every prefix of the run)
the balance is non-negative. -/
theorem C2_ledger_balance_invariant (st st' : LedgerState) (ops : List LedgerOp)
    (h0 : 0 ≤ st.item.quantity.current)
    (h : runLedgerOps st ops = some st') :
    st'.item.quantity.current =
      st.item.quantity.current - sumWithdrawals ops + sumRestocks ops ∧
    ∀ pre suf, ops = pre ++ suf →
      ∃ mid, runLedgerOps st pre = some mid ∧ 0 ≤ mid.item.quantity.current := by
  refine ⟨runLedgerOps_balance st st' ops h, ?_⟩
  intro pre suf hsplit
  subst hsplit
  rw [runLedgerOps_append] at h
  cases hp : runLedgerOps st pre with
  | none => rw [hp] at h; simp at h
  | some mid =>
    exact ⟨mid, rfl, runLedgerOps_nonneg st mid pre hp h0⟩

/-- Witness for C2 at the concrete state `demoState` (balance 10) and the
concrete run `demoOps` (withdraw 3, restock 5, withdraw 2). -/
theorem C2_ledger_balance_invariant_witness :
    ∃ st', runLedgerOps demoState demoOps = some st' ∧
      (st'.item.quantity.current =
        demoState.item.quantity.current - sumWithdrawals demoOps + sumRestocks demoOps ∧
      ∀ pre suf, demoOps = pre ++ suf →
        ∃ mid, runLedgerOps demoState pre = some mid ∧
          0 ≤ mid.item.quantity.current) := by
  cases hrun : runLedgerOps demoState demoOps with
  | none => exact absurd hrun (by decide)
  | some st' =>
    exact ⟨st', rfl,
      C2_ledger_balance_invariant demoState st' demoOps (by decide) hrun⟩

/-- A withdraw whose guard passes always returns the success response (every
branch after the deduction answers 200). -/
theorem withdrawInventory_fst_none (st : LedgerState) (q : Int) (tid : Option Nat)
    (now : Int) (adm : Bool) (hg : ¬ st.item.quantity.current < q) :
    (withdrawInventory st q tid now adm).1 = none := by
  have hv : ¬ st.item.quantity.current - q < 0 := by omega
  simp only [withdrawInventory, InventoryItem.deduct, saveInventoryItem, hg, hv, if_false]
  split
  · split <;> rfl
  · rfl

/-- A restock whose saved balance passes the `min: 0` validator always
returns the success response. -/
theorem restockInventory_fst_none (st : LedgerState) (q : Int) (now : Int)
    (hv : ¬ st.item.quantity.current + q < 0) :
    (restockInventory st q now).1 = none := by
  simp only [restockInventory, InventoryItem.restock, saveInventoryItem, hv, if_false]

/-- C5: every successful withdraw or restock request appends exactly one
transaction; its `previousQuantity` is the balance immediately before, its
`newQuantity` the balance immediately after, the two differ by the request
quantity in the direction given by the transaction type, and the recorded
`newQuantity` is never negative. -/
theorem C5_transaction_snapshot (st st1 : LedgerState) (op : LedgerOp)
    (h : applyLedgerOp st op = (none, st1)) :
    ∃ txn, st1.transactions = st.transactions ++ [txn] ∧
      txn.previousQuantity = st.item.quantity.current ∧
      txn.newQuantity = st1.item.quantity.current ∧
      (match op with
        | LedgerOp.withdraw q _ _ _ =>
            txn.ttype = "withdrawal" ∧ txn.quantity = q ∧
            txn.newQuantity = txn.previousQuantity - q
        | LedgerOp.restock q _ =>
            txn.ttype = "restock" ∧ txn.quantity = q ∧
            txn.newQuantity = txn.previousQuantity + q) ∧
      0 ≤ txn.newQuantity := by
  cases op with
  | withdraw q tid now adm =>
    obtain ⟨hq, hcur, hunit, htx, -⟩ := withdrawInventory_ok_spec st st1 q tid now adm h
    refine ⟨_, htx, rfl, ?_, ⟨rfl, rfl, rfl⟩, ?_⟩
    · rw [hcur]
    · simp only []
      omega
  | restock q now =>
    obtain ⟨hv, hcur, hunit, hal, htx, -⟩ := restockInventory_ok_spec st st1 q now h
    refine ⟨_, htx, rfl, ?_, ⟨rfl, rfl, rfl⟩, ?_⟩
    · rw [hcur]
    · simp only []
      omega

/-- Witness for C5 at the concrete state `demoState` and a withdraw of 3. -/
theorem C5_transaction_snapshot_witness :
    ∃ st1, applyLedgerOp demoState (LedgerOp.withdraw 3 none 0 false) = (none, st1) ∧
      ∃ txn, st1.transactions = demoState.transactions ++ [txn] ∧
        txn.previousQuantity = demoState.item.quantity.current ∧
        txn.newQuantity = st1.item.quantity.current ∧
        (txn.ttype = "withdrawal" ∧ txn.quantity = 3 ∧
          txn.newQuantity = txn.previousQuantity - 3) ∧
        0 ≤ txn.newQuantity := by
  have hfst : (applyLedgerOp demoState (LedgerOp.withdraw 3 none 0 false)).1 = none := by
    decide
  have hap : applyLedgerOp demoState (LedgerOp.withdraw 3 none 0 false) =
      (none, (applyLedgerOp demoState (LedgerOp.withdraw 3 none 0 false)).2) := by
    rw [← hfst]
  exact ⟨_, hap, C5_transaction_snapshot demoState _ _ hap⟩

/-- One successful request preserves the alert-cooldown invariant. -/
theorem applyLedgerOp_alertInvariant (st st1 : LedgerState) (op : LedgerOp)
    (h : applyLedgerOp st op = (none, st1)) (hinv : alertInvariant st) :
    alertInvariant st1 := by
  cases op with
  | restock q now =>
    obtain ⟨-, -, -, hal, -, hnotif⟩ := restockInventory_ok_spec st st1 q now h
    refine ⟨hnotif ▸ hinv.1, ?_⟩
    intro x hx
    rw [hnotif] at hx
    obtain ⟨t, ht, hxt⟩ := hinv.2 x hx
    exact ⟨t, by rw [hal]; exact ht, hxt⟩
  | withdraw q tid now adm =>
    obtain ⟨-, -, -, -, hcase⟩ := withdrawInventory_ok_spec st st1 q tid now adm h
    rcases hcase with ⟨hn, ha⟩ | ⟨hn, ha, hfire⟩
    · refine ⟨hn ▸ hinv.1, ?_⟩
      intro x hx
      rw [hn] at hx
      obtain ⟨t, ht, hxt⟩ := hinv.2 x hx
      exact ⟨t, by rw [ha]; exact ht, hxt⟩
    · constructor
      · rw [hn]
        refine List.pairwise_append.mpr ⟨hinv.1, List.pairwise_singleton .., ?_⟩
        intro x hx y hy
        simp only [List.mem_singleton] at hy
        subst hy
        rcases hfire with hnone | ⟨tprev, hprev, hgap⟩
        · obtain ⟨t, ht, -⟩ := hinv.2 x hx
          rw [hnone] at ht
          cases ht
        · obtain ⟨t, ht, hxt⟩ := hinv.2 x hx
          rw [hprev] at ht
          injection ht with ht
          subst ht
          omega
      · intro x hx
        rw [hn] at hx
        refine ⟨now, by rw [ha], ?_⟩
        rcases List.mem_append.mp hx with hx | hx
        · have hc : 0 < alertCooldownMs := by decide
          rcases hfire with hnone | ⟨tprev, hprev, hgap⟩
          · obtain ⟨t, ht, -⟩ := hinv.2 x hx
            rw [hnone] at ht
            cases ht
          · obtain ⟨t, ht, hxt⟩ := hinv.2 x hx
            rw [hprev] at ht
            injection ht with ht
            subst ht
            omega
        · simp only [List.mem_singleton] at hx
          exact le_of_eq hx

/-- A successful run preserves the alert-cooldown invariant. -/
theorem runLedgerOps_alertInvariant (st st' : LedgerState) (ops : List LedgerOp)
    (h : runLedgerOps st ops = some st') (hinv : alertInvariant st) :
    alertInvariant st' := by
  induction ops generalizing st with
  | nil =>
    simp only [runLedgerOps, Option.some.injEq] at h
    exact h ▸ hinv
  | cons op ops ih =>
    simp only [runLedgerOps] at h
    rcases hap : applyLedgerOp st op with ⟨fst, st1⟩
    rw [hap] at h
    cases fst with
    | none => exact ih st1 h (applyLedgerOp_alertInvariant st st1 op hap hinv)
    | some e => simp at h

/-- C6: starting from a state with no notification yet recorded, any two
low-stock notifications sent during a successful run are more than 24 hours
apart (so at most one fires per item inside any 24-hour window), and
whenever a request sends a notification it stamps
`lowStockAlert.lastAlertSent` with that notification's send time. -/
theorem C6_low_stock_alert_throttled (st st' : LedgerState) (ops : List LedgerOp)
    (h0 : st.lowStockNotifications = [])
    (h : runLedgerOps st ops = some st') :
    st'.lowStockNotifications.Pairwise (fun a b => alertCooldownMs < b - a) ∧
    ∀ (st2 st3 : LedgerState) (op : LedgerOp) (tsend : Int),
      applyLedgerOp st2 op = (none, st3) →
      st3.lowStockNotifications = st2.lowStockNotifications ++ [tsend] →
      st3.item.lowStockAlert.lastAlertSent = some tsend := by
  constructor
  · have hinv0 : alertInvariant st := by
      refine ⟨h0 ▸ List.Pairwise.nil, ?_⟩
      intro x hx
      rw [h0] at hx
      cases hx
    exact (runLedgerOps_alertInvariant st st' ops h hinv0).1
  · intro st2 st3 op tsend hap hsent
    cases op with
    | restock q now =>
      obtain ⟨-, -, -, -, -, hnotif⟩ := restockInventory_ok_spec st2 st3 q now hap
      rw [hnotif] at hsent
      simp at hsent
    | withdraw q tid now adm =>
      obtain ⟨-, -, -, -, hcase⟩ := withdrawInventory_ok_spec st2 st3 q tid now adm hap
      rcases hcase with ⟨hn, ha⟩ | ⟨hn, ha, -⟩
      · rw [hn] at hsent
        simp at hsent
      · rw [hn] at hsent
        have hts : [now] = [tsend] := List.append_cancel_left hsent
        injection hts with hts hrest
        rw [ha, hts]

/-- Witness for C6 at the concrete state `demoAlertState` and the run
`demoAlertOps`, in which the low-stock threshold is crossed three times but
only the first and third withdrawals (25 hours apart) send an alert. -/
theorem C6_low_stock_alert_throttled_witness :
    ∃ st', runLedgerOps demoAlertState demoAlertOps = some st' ∧
      (st'.lowStockNotifications.Pairwise (fun a b => alertCooldownMs < b - a) ∧
      ∀ (st2 st3 : LedgerState) (op : LedgerOp) (tsend : Int),
        applyLedgerOp st2 op = (none, st3) →
        st3.lowStockNotifications = st2.lowStockNotifications ++ [tsend] →
        st3.item.lowStockAlert.lastAlertSent = some tsend) := by
  cases hrun : runLedgerOps demoAlertState demoAlertOps with
  | none => exact absurd hrun (by decide)
  | some st' =>
    exact ⟨st', rfl,
      C6_low_stock_alert_throttled demoAlertState st' demoAlertOps rfl hrun⟩

/-- Counterexample for C8: at a concrete item with balance 10, a
zero-quantity withdraw and a zero-quantity restock are not rejected as
invalid input — both return the success response and each appends a
transaction record, i.e. they are processed as ledger operations. -/
theorem C8_zero_quantity_counterexample :
    (withdrawInventory demoState 0 none 0 false).1 = none ∧
    ((withdrawInventory demoState 0 none 0 false).2.transactions).length = 1 ∧
    (restockInventory demoState 0 1).1 = none ∧
    ((restockInventory demoState 0 1).2.transactions).length = 1 ∧
    demoState.transactions.length = 0 := by
  decide

/-- C8 (amended): a zero-quantity withdraw or restock on an item with a
non-negative balance is accepted and processed as a normal ledger
operation — it succeeds, leaves the balance unchanged, and appends one
transaction whose `newQuantity` equals its `previousQuantity`; no
invalid-quantity rejection exists in either handler. -/
theorem C8_zero_quantity_processed (st : LedgerState) (tid : Option Nat)
    (noww nowr : Int) (adm : Bool) (h0 : 0 ≤ st.item.quantity.current) :
    (withdrawInventory st 0 tid noww adm).1 = none ∧
    (withdrawInventory st 0 tid noww adm).2.item.quantity.current =
      st.item.quantity.current ∧
    (∃ txn, (withdrawInventory st 0 tid noww adm).2.transactions =
        st.transactions ++ [txn] ∧
      txn.ttype = "withdrawal" ∧ txn.quantity = 0 ∧
      txn.newQuantity = txn.previousQuantity) ∧
    (restockInventory st 0 nowr).1 = none ∧
    (restockInventory st 0 nowr).2.item.quantity.current =
      st.item.quantity.current ∧
    (∃ txn, (restockInventory st 0 nowr).2.transactions =
        st.transactions ++ [txn] ∧
      txn.ttype = "restock" ∧ txn.quantity = 0 ∧
      txn.newQuantity = txn.previousQuantity) := by
  have hg : ¬ st.item.quantity.current < 0 := by omega
  have hfstw := withdrawInventory_fst_none st 0 tid noww adm hg
  have hw : withdrawInventory st 0 tid noww adm =
      (none, (withdrawInventory st 0 tid noww adm).2) := by
    rw [← hfstw]
  obtain ⟨-, hcurw, -, htxw, -⟩ := withdrawInventory_ok_spec _ _ _ _ _ _ hw
  have hvr : ¬ st.item.quantity.current + 0 < 0 := by omega
  have hfstr := restockInventory_fst_none st 0 nowr hvr
  have hr : restockInventory st 0 nowr = (none, (restockInventory st 0 nowr).2) := by
    rw [← hfstr]
  obtain ⟨-, hcurr, -, -, htxr, -⟩ := restockInventory_ok_spec _ _ _ _ hr
  refine ⟨hfstw, by rw [hcurw]; omega,
    ⟨_, htxw, rfl, rfl, ?_⟩,
    hfstr, by rw [hcurr]; omega,
    ⟨_, htxr, rfl, rfl, ?_⟩⟩
  · show st.item.quantity.current - 0 = st.item.quantity.current
    omega
  · show st.item.quantity.current + 0 = st.item.quantity.current
    omega

/-- Witness for C8 (amended) at the concrete state `demoState`. -/
theorem C8_zero_quantity_processed_witness :
    (withdrawInventory demoState 0 none 0 false).1 = none ∧
    (withdrawInventory demoState 0 none 0 false).2.item.quantity.current =
      demoState.item.quantity.current ∧
    (∃ txn, (withdrawInventory demoState 0 none 0 false).2.transactions =
        demoState.transactions ++ [txn] ∧
      txn.ttype = "withdrawal" ∧ txn.quantity = 0 ∧
      txn.newQuantity = txn.previousQuantity) ∧
    (restockInventory demoState 0 1).1 = none ∧
    (restockInventory demoState 0 1).2.item.quantity.current =
      demoState.item.quantity.current ∧
    (∃ txn, (restockInventory demoState 0 1).2.transactions =
        demoState.transactions ++ [txn] ∧
      txn.ttype = "restock" ∧ txn.quantity = 0 ∧
      txn.newQuantity = txn.previousQuantity) :=
  C8_zero_quantity_processed demoState none 0 1 false (by decide)

/-- C10: `withdrawInventory` never checks that the quantity is positive:
a strictly negative quantity passes the insufficient-stock guard, the
operation succeeds, the balance rises by the absolute value of the
quantity, and a `withdrawal` transaction is recorded whose `newQuantity`
exceeds its `previousQuantity`. -/
theorem C10_negative_withdraw_succeeds (st : LedgerState) (q : Int)
    (tid : Option Nat) (now : Int) (adm : Bool)
    (hq : q < 0) (h0 : 0 ≤ st.item.quantity.current) :
    (withdrawInventory st q tid now adm).1 = none ∧
    (withdrawInventory st q tid now adm).2.item.quantity.current =
      st.item.quantity.current + (-q) ∧
    st.item.quantity.current <
      (withdrawInventory st q tid now adm).2.item.quantity.current ∧
    ∃ txn, (withdrawInventory st q tid now adm).2.transactions =
        st.transactions ++ [txn] ∧
      txn.ttype = "withdrawal" ∧
      txn.previousQuantity < txn.newQuantity := by
  have hg : ¬ st.item.quantity.current < q := by omega
  have hfst := withdrawInventory_fst_none st q tid now adm hg
  have h : withdrawInventory st q tid now adm =
      (none, (withdrawInventory st q tid now adm).2) := by
    rw [← hfst]
  obtain ⟨-, hcur, -, htx, -⟩ := withdrawInventory_ok_spec _ _ _ _ _ _ h
  refine ⟨hfst, by rw [hcur]; omega, by rw [hcur]; omega, _, htx, rfl, ?_⟩
  show st.item.quantity.current < st.item.quantity.current - q
  omega

/-- Witness for C10 at the concrete state `demoState` and quantity `-4`:
the balance rises from 10 to 14. -/
theorem C10_negative_withdraw_succeeds_witness :
    (withdrawInventory demoState (-4) none 0 false).1 = none ∧
    (withdrawInventory demoState (-4) none 0 false).2.item.quantity.current =
      demoState.item.quantity.current + 4 ∧
    demoState.item.quantity.current <
      (withdrawInventory demoState (-4) none 0 false).2.item.quantity.current ∧
    ∃ txn, (withdrawInventory demoState (-4) none 0 false).2.transactions =
        demoState.transactions ++ [txn] ∧
      txn.ttype = "withdrawal" ∧
      txn.previousQuantity < txn.newQuantity :=
  C10_negative_withdraw_succeeds demoState (-4) none 0 false (by decide) (by decide)

/-- The pre-save hook only ever writes `actualDuration` and `costTotal`:
every other modelled field survives a save unchanged. -/
theorem taskPreSave_frame (t : TaskDoc) :
    (taskPreSave t).worker = t.worker ∧
    (taskPreSave t).status = t.status ∧
    (taskPreSave t).startedAt = t.startedAt ∧
    (taskPreSave t).completedAt = t.completedAt ∧
    (taskPreSave t).materials = t.materials := by
  cases hs : t.startedAt <;> cases hc : t.completedAt <;>
    simp [taskPreSave, hs, hc]

/-- With both timestamps present, the hook writes exactly the rounded
hour difference. -/
theorem taskPreSave_actualDuration_some (t : TaskDoc) (s c : Int)
    (hs : t.startedAt = some s) (hc : t.completedAt = some c) :
    (taskPreSave t).actualDuration = roundTwoDecimals (specHoursBetween s c) := by
  unfold taskPreSave
  rw [hs, hc]
  simp only [roundTwoDecimals, specHoursBetween]
  norm_num

/-- With either timestamp missing, the hook leaves `actualDuration`
untouched. -/
theorem taskPreSave_actualDuration_none (t : TaskDoc)
    (h : t.startedAt = none ∨ t.completedAt = none) :
    (taskPreSave t).actualDuration = t.actualDuration := by
  unfold taskPreSave
  rcases h with h | h
  · rw [h]
  · rw [h]
    cases hs : t.startedAt <;> simp

/-- C7 (amended): on every save, when both `startedAt` and `completedAt`
are present, `actualDuration` becomes the elapsed time in hours rounded to
two decimal places (JS `Math.round` semantics); when either timestamp is
missing, the hook computes nothing and leaves `actualDuration` unchanged
(it does not reset a stale value to zero or remove it). -/
theorem C7_actual_duration_on_save (t : TaskDoc) :
    (∀ s c, t.startedAt = some s → t.completedAt = some c →
      (taskPreSave t).actualDuration = roundTwoDecimals (specHoursBetween s c)) ∧
    ((t.startedAt = none ∨ t.completedAt = none) →
      (taskPreSave t).actualDuration = t.actualDuration) := by
  exact ⟨fun s c hs hc => taskPreSave_actualDuration_some t s c hs hc,
    fun h => taskPreSave_actualDuration_none t h⟩

/-- Witness for C7 (amended): the task that ran from 0 to 5400000 ms gets
`actualDuration = roundTwoDecimals (specHoursBetween 0 5400000)`
(= 1.5 hours), and the stale task keeps its stale value 7. -/
theorem C7_actual_duration_on_save_witness :
    (taskPreSave demoTimedTask).actualDuration =
      roundTwoDecimals (specHoursBetween 0 5400000) ∧
    (taskPreSave demoStaleTask).actualDuration = demoStaleTask.actualDuration :=
  ⟨(C7_actual_duration_on_save demoTimedTask).1 0 5400000 rfl rfl,
    (C7_actual_duration_on_save demoStaleTask).2 (Or.inl rfl)⟩

/-- Counterexample for C7: saving the concrete task `demoStaleTask`, whose
timestamps are both missing and whose `actualDuration` is 7, leaves
`actualDuration` at 7 — not absent and not zero, contradicting the claim
that `actualDuration` is absent or zero whenever a timestamp is missing. -/
theorem C7_stale_duration_counterexample :
    demoStaleTask.startedAt = none ∧
    demoStaleTask.completedAt = none ∧
    (taskPreSave demoStaleTask).actualDuration = 7 ∧
    (7 : Rat) ≠ 0 := by
  refine ⟨rfl, rfl, rfl, ?_⟩
  norm_num

/-- Counterexample for C3: on the concrete world `demoAssignedWorld`,
whose task already has worker 1 and a non-empty material list, `assignTask`
with worker 2 does not fail with a conflict error — it answers success,
silently overwrites the worker, and performs no stock-ledger withdrawal;
and on the unassigned world it also succeeds without touching inventory,
refuting the claimed withdrawal-at-assignment. -/
theorem C3_assign_conflict_counterexample :
    demoAssignedWorld.task.worker = some 1 ∧
    demoAssignedWorld.task.materials ≠ [] ∧
    (assignTask demoAssignedWorld 2 demoUsers).1 = none ∧
    (assignTask demoAssignedWorld 2 demoUsers).2.task.worker = some 2 ∧
    (assignTask demoAssignedWorld 2 demoUsers).2.inventory =
      demoAssignedWorld.inventory ∧
    (assignTask demoAssignedWorld 2 demoUsers).2.transactions = [] ∧
    demoUnassignedWorld.task.worker = none ∧
    (assignTask demoUnassignedWorld 2 demoUsers).1 = none ∧
    (assignTask demoUnassignedWorld 2 demoUsers).2.inventory =
      demoUnassignedWorld.inventory := by
  refine ⟨rfl, ?_, rfl, rfl, rfl, rfl, rfl, rfl, rfl⟩
  decide

/-- C3 (amended): `assignTask` never checks the task's current worker and
never raises a conflict: whenever the requested worker exists with role
`worker`, it succeeds — regardless of whether `worker` was already set —
overwrites `worker`, sets status `assigned`, notifies the worker, and
performs no stock-ledger withdrawal at all (inventory and the transaction
log are untouched); material deduction happens only on the `updateTask`
path. -/
theorem C3_assign_overwrites_without_withdrawal (w : TaskWorld)
    (workerId : Nat) (users : Nat → Option UserRec) (u : UserRec)
    (hu : users workerId = some u) (hrole : u.role = "worker") :
    (assignTask w workerId users).1 = none ∧
    (assignTask w workerId users).2.task.worker = some workerId ∧
    (assignTask w workerId users).2.task.status = "assigned" ∧
    (assignTask w workerId users).2.inventory = w.inventory ∧
    (assignTask w workerId users).2.transactions = w.transactions ∧
    (assignTask w workerId users).2.notifications =
      w.notifications ++ ["task-assignment"] := by
  have hassign : assignTask w workerId users =
      (none,
        { w with
          task := taskPreSave
            { w.task with worker := some workerId, status := "assigned" }
          notifications := w.notifications ++ ["task-assignment"] }) := by
    unfold assignTask
    rw [hu]
    simp [hrole]
  rw [hassign]
  obtain ⟨hwk, hst, -, -, -⟩ :=
    taskPreSave_frame { w.task with worker := some workerId, status := "assigned" }
  exact ⟨rfl, hwk, hst, rfl, rfl, rfl⟩

/-- Witness for C3 (amended) at the concrete world `demoAssignedWorld`
(worker already set to 1) and worker 2 from `demoUsers`. -/
theorem C3_assign_overwrites_without_withdrawal_witness :
    (assignTask demoAssignedWorld 2 demoUsers).1 = none ∧
    (assignTask demoAssignedWorld 2 demoUsers).2.task.worker = some 2 ∧
    (assignTask demoAssignedWorld 2 demoUsers).2.task.status = "assigned" ∧
    (assignTask demoAssignedWorld 2 demoUsers).2.inventory =
      demoAssignedWorld.inventory ∧
    (assignTask demoAssignedWorld 2 demoUsers).2.transactions =
      demoAssignedWorld.transactions ∧
    (assignTask demoAssignedWorld 2 demoUsers).2.notifications =
      demoAssignedWorld.notifications ++ ["task-assignment"] :=
  C3_assign_overwrites_without_withdrawal demoAssignedWorld 2 demoUsers
    { role := "worker" } rfl rfl

/-- Counterexample for C4: on the concrete world `demoAssignedWorld` (all
counters 0, no notifications), the assigned worker 1 completing the task
gets a success and the status/completedAt writes, but every completedTasks
counter stays 0, the site's lastVisit stays unset, and no notification is
recorded — contradicting the claimed counter increments and completion
notification. -/
theorem C4_complete_task_counterexample :
    (completeTask demoAssignedWorld 1 99).1 = none ∧
    (completeTask demoAssignedWorld 1 99).2.task.status = "completed" ∧
    (completeTask demoAssignedWorld 1 99).2.task.completedAt = some 99 ∧
    (completeTask demoAssignedWorld 1 99).2.clientCompletedTasks = 0 ∧
    (completeTask demoAssignedWorld 1 99).2.workerCompletedTasks = 0 ∧
    (completeTask demoAssignedWorld 1 99).2.siteCompletedTasks = 0 ∧
    (completeTask demoAssignedWorld 1 99).2.siteLastVisit = none ∧
    (completeTask demoAssignedWorld 1 99).2.notifications = [] :=
  ⟨rfl, rfl, rfl, rfl, rfl, rfl, rfl, rfl⟩

/-- C4 (amended): when the assigned worker completes a task via
`completeTask`, the handler sets status to `completed` and `completedAt`
to the current time and saves, but it increments none of the client,
worker or site `completedTasks` counters, does not update the site's
`lastVisit`, and triggers no completion notification (those counter
increments exist only on the `updateTask` status-change path, which also
sends no notification). -/
theorem C4_complete_task_sets_status_only (w : TaskWorld) (uid : Nat)
    (now : Int) (h : w.task.worker = some uid) :
    (completeTask w uid now).1 = none ∧
    (completeTask w uid now).2.task.status = "completed" ∧
    (completeTask w uid now).2.task.completedAt = some now ∧
    (completeTask w uid now).2.clientCompletedTasks = w.clientCompletedTasks ∧
    (completeTask w uid now).2.workerCompletedTasks = w.workerCompletedTasks ∧
    (completeTask w uid now).2.siteCompletedTasks = w.siteCompletedTasks ∧
    (completeTask w uid now).2.siteLastVisit = w.siteLastVisit ∧
    (completeTask w uid now).2.notifications = w.notifications := by
  have hcomp : completeTask w uid now =
      (none,
        { w with
          task := taskPreSave
            { w.task with
              status := "completed"
              completedAt := some now
              endLocationAt := some now } }) := by
    unfold completeTask
    rw [h]
    simp
  rw [hcomp]
  obtain ⟨-, hst, -, hca, -⟩ :=
    taskPreSave_frame
      { w.task with
        status := "completed", completedAt := some now, endLocationAt := some now }
  exact ⟨rfl, hst, hca, rfl, rfl, rfl, rfl, rfl⟩

/-- Witness for C4 (amended) at the concrete world `demoAssignedWorld`
and its assigned worker 1. -/
theorem C4_complete_task_sets_status_only_witness :
    (completeTask demoAssignedWorld 1 50).1 = none ∧
    (completeTask demoAssignedWorld 1 50).2.task.status = "completed" ∧
    (completeTask demoAssignedWorld 1 50).2.task.completedAt = some 50 ∧
    (completeTask demoAssignedWorld 1 50).2.clientCompletedTasks =
      demoAssignedWorld.clientCompletedTasks ∧
    (completeTask demoAssignedWorld 1 50).2.workerCompletedTasks =
      demoAssignedWorld.workerCompletedTasks ∧
    (completeTask demoAssignedWorld 1 50).2.siteCompletedTasks =
      demoAssignedWorld.siteCompletedTasks ∧
    (completeTask demoAssignedWorld 1 50).2.siteLastVisit =
      demoAssignedWorld.siteLastVisit ∧
    (completeTask demoAssignedWorld 1 50).2.notifications =
      demoAssignedWorld.notifications :=
  C4_complete_task_sets_status_only demoAssignedWorld 1 50 rfl

/-- The deduction loop leaves every inventory item whose id is not among
the materials' item references untouched, whether it stops with an error
or runs to completion. -/
theorem deductMaterials_not_mem (mats : List Material) :
    ∀ (inv : Nat → Option InventoryItem) (e : Option String)
      (inv' : Nat → Option InventoryItem) (id : Nat),
      deductMaterials inv mats = (e, inv') →
      id ∉ mats.filterMap Material.item →
      inv' id = inv id := by
  induction mats with
  | nil =>
    intro inv e inv' id h hid
    simp only [deductMaterials] at h
    cases h
    rfl
  | cons m0 rest ih =>
    intro inv e inv' id h hid
    simp only [deductMaterials] at h
    cases hm0 : m0.item with
    | none =>
      rw [hm0] at h
      simp only [] at h
      exact ih inv e inv' id h
        (by simpa [List.filterMap_cons, hm0] using hid)
    | some id0 =>
      rw [hm0] at h
      simp only [] at h
      have hid' : id ≠ id0 ∧ id ∉ rest.filterMap Material.item := by
        simp only [List.filterMap_cons, hm0, List.mem_cons] at hid
        push_neg at hid
        exact hid
      cases hinv0 : inv id0 with
      | none =>
        rw [hinv0] at h
        simp only [] at h
        exact ih inv e inv' id h hid'.2
      | some it0 =>
        rw [hinv0] at h
        simp only [] at h
        cases hd : it0.deduct m0.quantity with
        | error er =>
          rw [hd] at h
          simp only [] at h
          cases h
          rfl
        | ok it1 =>
          rw [hd] at h
          simp only [] at h
          have := ih _ e inv' id h hid'.2
          rw [this]
          simp [hid'.1]

/-- When the deduction loop completes without error and the material item
references are pairwise distinct, every referenced item that existed in
inventory ends with its balance lowered by exactly that material's
declared quantity (and still non-negative). -/
theorem deductMaterials_ok_spec (mats : List Material) :
    ∀ (inv inv' : Nat → Option InventoryItem),
      deductMaterials inv mats = (none, inv') →
      (mats.filterMap Material.item).Nodup →
      ∀ m ∈ mats, ∀ id, m.item = some id → ∀ it, inv id = some it →
        ∃ it', inv' id = some it' ∧
          it'.quantity.current = it.quantity.current - m.quantity ∧
          0 ≤ it'.quantity.current := by
  induction mats with
  | nil =>
    intro inv inv' h hnodup m hm
    cases hm
  | cons m0 rest ih =>
    intro inv inv' h hnodup m hm id hmid it hit
    simp only [deductMaterials] at h
    cases hm0 : m0.item with
    | none =>
      rw [hm0] at h
      simp only [] at h
      have hnodup' : (rest.filterMap Material.item).Nodup := by
        simpa [List.filterMap_cons, hm0] using hnodup
      rcases List.mem_cons.mp hm with rfl | hm
      · rw [hm0] at hmid
        cases hmid
      · exact ih inv inv' h hnodup' m hm id hmid it hit
    | some id0 =>
      rw [hm0] at h
      simp only [] at h
      have hnd := hnodup
      simp only [List.filterMap_cons, hm0] at hnd
      have hid0 : id0 ∉ rest.filterMap Material.item := (List.nodup_cons.mp hnd).1
      have hnodup' : (rest.filterMap Material.item).Nodup := (List.nodup_cons.mp hnd).2
      cases hinv0 : inv id0 with
      | none =>
        rw [hinv0] at h
        simp only [] at h
        rcases List.mem_cons.mp hm with rfl | hm
        · rw [hm0] at hmid
          injection hmid with hmid
          subst hmid
          rw [hinv0] at hit
          cases hit
        · exact ih inv inv' h hnodup' m hm id hmid it hit
      | some it0 =>
        rw [hinv0] at h
        simp only [] at h
        cases hd : it0.deduct m0.quantity with
        | error er =>
          rw [hd] at h
          simp only [] at h
          simp at h
        | ok it1 =>
          rw [hd] at h
          simp only [] at h
          obtain ⟨hg, hit1⟩ := (deduct_ok_iff it0 it1 m0.quantity).mp hd
          rcases List.mem_cons.mp hm with rfl | hm
          · rw [hm0] at hmid
            injection hmid with hmid
            subst hmid
            rw [hinv0] at hit
            injection hit with hit
            subst hit
            have hpres := deductMaterials_not_mem rest _ none inv' id0 h hid0
            refine ⟨it1, by rw [hpres]; simp, ?_, ?_⟩
            · rw [hit1]
            · rw [hit1]
              simp only []
              omega
          · have hne : id ≠ id0 := by
              intro heq
              subst heq
              exact hid0 (List.mem_filterMap.mpr ⟨m, hm, hmid⟩)
            exact ih _ inv' h hnodup' m hm id hmid it
              (by simp [hne, hit])

/-- C9: when `updateTask` receives a body carrying a worker for a task
whose `worker` is unset (the implicit assign path), and every material
deduction succeeds, the handler succeeds, deducts each material line's
declared quantity from the corresponding inventory item through
`Inventory.deduct`, sets the task's status to `assigned` — and appends no
`InventoryTransaction` for any of these deductions: the transaction log is
unchanged while each referenced item's balance drops by the declared
quantity (strictly, for positive quantities). -/
theorem C9_update_assign_deducts_without_transactions (w : TaskWorld)
    (body : UpdateBody) (userId : Nat) (now : Int) (wid : Nat)
    (inv' : Nat → Option InventoryItem)
    (hbw : body.worker = some wid)
    (hw0 : w.task.worker = none)
    (hded : deductMaterials w.inventory w.task.materials = (none, inv'))
    (hnodup : (w.task.materials.filterMap Material.item).Nodup) :
    (updateTask w body "admin" userId now).1 = none ∧
    (updateTask w body "admin" userId now).2.task.status = "assigned" ∧
    (updateTask w body "admin" userId now).2.transactions = w.transactions ∧
    (updateTask w body "admin" userId now).2.inventory = inv' ∧
    (updateTask w body "admin" userId now).2.clientCompletedTasks =
      w.clientCompletedTasks ∧
    (updateTask w body "admin" userId now).2.notifications = w.notifications ∧
    ∀ m ∈ w.task.materials, ∀ id, m.item = some id → ∀ it,
      w.inventory id = some it → 0 < m.quantity →
      ∃ it', inv' id = some it' ∧
        it'.quantity.current = it.quantity.current - m.quantity ∧
        it'.quantity.current < it.quantity.current := by
  have hguard : ¬("admin" = "worker" ∧ w.task.worker ≠ some userId) := by
    rintro ⟨h1, -⟩
    exact absurd h1 (by decide)
  have hcond : (body.worker.isSome ∧ w.task.worker = none) :=
    ⟨by rw [hbw]; rfl, hw0⟩
  have hupd : updateTask w body "admin" userId now =
      (none,
        { w with
          inventory := inv'
          task := applyBody w.task { body with status := some "assigned" } }) := by
    unfold updateTask
    rw [if_neg hguard, if_pos hcond, hded]
    rfl
  rw [hupd]
  refine ⟨rfl, rfl, rfl, rfl, rfl, rfl, ?_⟩
  intro m hm id hmid it hit hpos
  obtain ⟨it', hinv', hcur, -⟩ :=
    deductMaterials_ok_spec w.task.materials w.inventory inv' hded hnodup
      m hm id hmid it hit
  exact ⟨it', hinv', hcur, by omega⟩

/-- Witness for C9 at the concrete unassigned world (one material line of
quantity 3 over item 0 with balance 10) and the body `demoBody`. -/
theorem C9_update_assign_deducts_without_transactions_witness :
    ∃ inv', deductMaterials demoUnassignedWorld.inventory
        demoUnassignedWorld.task.materials = (none, inv') ∧
      ((updateTask demoUnassignedWorld demoBody "admin" 5 0).1 = none ∧
      (updateTask demoUnassignedWorld demoBody "admin" 5 0).2.task.status =
        "assigned" ∧
      (updateTask demoUnassignedWorld demoBody "admin" 5 0).2.transactions =
        demoUnassignedWorld.transactions ∧
      (updateTask demoUnassignedWorld demoBody "admin" 5 0).2.inventory = inv' ∧
      (updateTask demoUnassignedWorld demoBody "admin" 5 0).2.clientCompletedTasks =
        demoUnassignedWorld.clientCompletedTasks ∧
      (updateTask demoUnassignedWorld demoBody "admin" 5 0).2.notifications =
        demoUnassignedWorld.notifications ∧
      ∀ m ∈ demoUnassignedWorld.task.materials, ∀ id, m.item = some id → ∀ it,
        demoUnassignedWorld.inventory id = some it → 0 < m.quantity →
        ∃ it', inv' id = some it' ∧
          it'.quantity.current = it.quantity.current - m.quantity ∧
          it'.quantity.current < it.quantity.current) := by
  have hfst : (deductMaterials demoUnassignedWorld.inventory
      demoUnassignedWorld.task.materials).1 = none := rfl
  have hd : deductMaterials demoUnassignedWorld.inventory
      demoUnassignedWorld.task.materials =
      (none, (deductMaterials demoUnassignedWorld.inventory
        demoUnassignedWorld.task.materials).2) := by
    rw [← hfst]
  exact ⟨_, hd,
    C9_update_assign_deducts_without_transactions demoUnassignedWorld demoBody
      5 0 2 _ rfl rfl hd (by decide)⟩
